import Mathlib

/-!
Verification of the graphql-talk repository's specification.

The repository (src/api/src/index.js and the unnamed earlier variant
src/unnamed/part_000) wires an Apollo GraphQL server over repositories.
The payment discriminator `resolvePayment` and the `Customer.address`
resolver are embedded directly from src/api/src/index.js.  The
batching/caching Loader core ("DataLoader") and the per-request
`createLoaders` factory are code of the repository's runtime that is not
under src/ (only their callers are), so they are modelled from the spec,
as are the response-building parts of the resolution engine.
-/

set_option autoImplicit false

namespace GraphqlTalk

/-! ## Payment discriminator (src/api/src/index.js lines 173-184) -/

/-- The three declared variants of the `OrderPayment` union / `Payment`
interface in the schema of src/api/src/index.js. -/
inductive PaymentVariant where
  | Credit
  | Debit
  | PayPal
deriving DecidableEq

/-- A backing payment object, abstracted to the JS truthiness of the three
distinguishing attributes inspected by `resolvePayment`
(src/api/src/index.js lines 174, 177, 180): each field is `true` exactly
when the corresponding attribute is present and truthy on the object. -/
structure PaymentObj where
  authorizationCode : Bool
  bankAuthCode : Bool
  chargeBack : Bool
deriving DecidableEq

/-- Embedding of `resolvePayment` (src/api/src/index.js lines 173-184):
three `if` checks in order; the `chargeBack` branch returns
`info.schema.getType("PayPal")`, which per the source comment "does the
same thing" as returning the PayPal variant; when no condition holds the
JS function falls through and returns `undefined`, embedded as `none`. -/
def resolvePayment (obj : PaymentObj) : Option PaymentVariant :=
  if obj.authorizationCode then some .Credit
  else if obj.bankAuthCode then some .Debit
  else if obj.chargeBack then some .PayPal
  else none

/-! ## Customer.address resolver (src/api/src/index.js lines 139-146) -/

/-- The `Address` object type of the schema. -/
structure Address where
  streetAddress : String
  city : String
  state : String
  zipCode : String
deriving DecidableEq

/-- A customer record as seen by the `Customer.address` resolver: its id
and its (possibly absent / falsy) address. -/
structure Customer where
  id : Nat
  address : Option Address
deriving DecidableEq

/-- The only error class declared in the source:
`class AddressNotFound extends ApolloError` (src/api/src/index.js
lines 114-118). -/
inductive GqlError where
  | addressNotFound (message : String)
deriving DecidableEq

/-- The message built at src/api/src/index.js line 143. -/
def addressMessage (c : Customer) : String :=
  "No address for customer: " ++ toString c.id

/-- Embedding of the `Customer.address` resolver (src/api/src/index.js
lines 140-146): if the customer's address is absent it throws
`AddressNotFound`, otherwise it returns the address unchanged. -/
def addressResolver (c : Customer) : Except GqlError Address :=
  match c.address with
  | none => .error (.addressNotFound (addressMessage c))
  | some a => .ok a

/-- Modelled from the spec: a result type "carrying an optional value,
optional error, and the originating node path, consumed by the engine to
build a partial output graph rather than aborting the whole response"
(spec section 9); the engine itself is external to src/. -/
structure FieldResult (V : Type) where
  path : List String
  value : Option V
  error : Option GqlError

/-- Modelled from the spec: the partial output graph, data alongside
field-level errors (spec sections 7 and 9). -/
structure Response (V : Type) where
  dataOut : List (List String × V)
  errors : List (List String × GqlError)

/-- Converts a resolver outcome at a node path into a `FieldResult`:
a thrown error is attached to the node instead of aborting. -/
def fieldOf {V : Type} (p : List String) : Except GqlError V → FieldResult V
  | .ok v => ⟨p, some v, none⟩
  | .error e => ⟨p, none, some e⟩

/-- Modelled from the spec: the engine builds a partial output graph from
all field results, keeping every resolved value and attaching each error
to its node (spec section 7: field-level errors "without aborting sibling
branches"). -/
def buildResponse {V : Type} (fields : List (FieldResult V)) : Response V :=
  ⟨fields.filterMap (fun f => f.value.map (fun v => (f.path, v))),
   fields.filterMap (fun f => f.error.map (fun e => (f.path, e)))⟩

/-! ## The Loader core

Modelled from the spec (sections 3, 4.1, 7): the DataLoader library used
by the repositories is code of the repository's runtime not under src/
(only its callers are, e.g. `.load(...)` calls in src/unnamed/part_000
lines 73, 88, 93, 96, 101). -/

/-- Modelled from the spec: a per-key outcome, "either a value or an
error, one per key" (spec section 4.1). -/
inductive Outcome (V : Type) where
  | val (v : V)
  | err (e : String)
deriving DecidableEq

/-- Modelled from the spec: a Loader instance "owns exactly one Memo
Cache and one in-flight Batch" (spec section 3).  The Memo Cache is an
association list from keys to resolved outcomes; the Batch is the ordered
sequence of distinct keys accumulated since the last flush. -/
structure LoaderState (K V : Type) where
  cache : List (K × Outcome V)
  batch : List K
deriving DecidableEq

/-- A freshly constructed Loader: empty Memo Cache, empty Batch. -/
def initLoader {K V : Type} : LoaderState K V := ⟨[], []⟩

/-- First-match lookup in an association list (the Memo Cache). -/
def lookupKV {K A : Type} [DecidableEq K] : List (K × A) → K → Option A
  | [], _ => none
  | (k2, a) :: rest, k => if k = k2 then some a else lookupKV rest k

/-- What one `load` call hands back synchronously: the cached outcome when
the key is memoized, or a pending handle tied to the key otherwise. -/
inductive LoadResult (V : Type) where
  | cached (o : Outcome V)
  | pending
deriving DecidableEq

/-- Modelled from the spec: `load(key)` (spec section 4.1): (1) a cached
key returns the cached outcome with no new work scheduled; (2) a key
already in the in-flight Batch returns the same pending handle; (3)
otherwise the key is appended to the Batch and a new pending handle is
returned. -/
def load {K V : Type} [DecidableEq K] (k : K) (s : LoaderState K V) :
    LoadResult V × LoaderState K V :=
  match lookupKV s.cache k with
  | some o => (.cached o, s)
  | none =>
    if k ∈ s.batch then (.pending, s)
    else (.pending, ⟨s.cache, s.batch ++ [k]⟩)

/-- A sequence of `load` calls issued within one synchronous pass. -/
def loads {K V : Type} [DecidableEq K] (ks : List K) (s : LoaderState K V) :
    LoaderState K V :=
  ks.foldl (fun t k => (load k t).2) s

/-- Modelled from the spec: `prime(key, value)` seeds the Memo Cache
directly; "priming a key already cached is a no-op (does not overwrite)"
(spec sections 4.1 and 8). -/
def prime {K V : Type} [DecidableEq K] (k : K) (v : V) (s : LoaderState K V) :
    LoaderState K V :=
  match lookupKV s.cache k with
  | some _ => s
  | none => ⟨s.cache ++ [(k, .val v)], s.batch⟩

/-- The record of one flush: the key sequence actually passed to the
batch-fetch function, the outcome delivered to the pending caller of each
key, and the Loader state afterwards. -/
structure FlushResult (K V : Type) where
  fetchedKeys : List K
  resolutions : List (K × Outcome V)
  state : LoaderState K V

/-- Modelled from the spec: the flush (spec sections 4.1 and 7): snapshot
and clear the Batch, invoke the batch-fetch function once with that key
sequence; on success resolve each PendingEntry by position and place every
outcome (success or per-key error) in the Memo Cache; on a total
batch-fetch failure every PendingEntry in the batch resolves to that same
failure and nothing is cached; a result sequence of the wrong length is a
broken-collaborator misuse error, fatal to the batch and not cached. -/
def flush {K V : Type} [DecidableEq K]
    (fetch : List K → Except String (List (Outcome V)))
    (s : LoaderState K V) : FlushResult K V :=
  match fetch s.batch with
  | .error e => ⟨s.batch, s.batch.map (fun k => (k, .err e)), ⟨s.cache, []⟩⟩
  | .ok outs =>
    if outs.length = s.batch.length then
      ⟨s.batch, s.batch.zip outs, ⟨s.cache ++ s.batch.zip outs, []⟩⟩
    else
      ⟨s.batch, s.batch.map (fun k => (k, .err "batch-fetch length mismatch")),
        ⟨s.cache, []⟩⟩

/-- The outcome a flush delivered to the pending caller(s) of key `k`. -/
def deliveredTo {K V : Type} [DecidableEq K] (fr : FlushResult K V) (k : K) :
    Option (Outcome V) :=
  lookupKV fr.resolutions k

/-- The distinct keys of `ks` in first-requested order, starting from an
already-accumulated batch `acc`. -/
def dedupFirstFrom {K : Type} [DecidableEq K] (acc : List K) (ks : List K) :
    List K :=
  ks.foldl (fun a k => if k ∈ a then a else a ++ [k]) acc

/-- The distinct keys of `ks` in the order each was first requested. -/
def dedupFirst {K : Type} [DecidableEq K] (ks : List K) : List K :=
  dedupFirstFrom [] ks

/-- The position of the first occurrence of `k` in a list (list length if
absent). -/
def firstIdx {K : Type} [DecidableEq K] : List K → K → Nat
  | [], _ => 0
  | x :: xs, k => if k = x then 0 else firstIdx xs k + 1

/-- The Loader's structural invariant: the Batch's key sequence has no
duplicates, and no batched key is already cached (spec section 4.1: a key
is never simultaneously batched-and-pending and cached). -/
def Wf {K V : Type} [DecidableEq K] (s : LoaderState K V) : Prop :=
  s.batch.Nodup ∧ ∀ k, k ∈ s.batch → lookupKV s.cache k = none

/-! ## Per-request context construction

src/api/src/index.js lines 186-195 pass `context` as a function, invoked
by the server once per inbound request, each invocation calling
`createLoaders()` on every repository.  src/unnamed/part_000 lines
106-114 instead pass `context` as a plain object built once at module
load, whose repositories (and the DataLoaders attached to them, e.g.
`findOrdersByCustomerId`) are therefore shared by all requests. -/

/-- Modelled from the spec: `createLoaders` (in the repositories module,
not under src/) constructs a fresh set of Loader instances on every call
(spec section 4.2).  Loader-set identity is modelled as an allocation id
drawn from a counter: distinct calls yield distinct ids. -/
def createLoaders (c : Nat) : Nat × Nat := (c, c + 1)

/-- The per-request context value: one loader-set id per repository, as
built at src/api/src/index.js lines 189-194 and src/unnamed/part_000
lines 109-113. -/
structure Ctx where
  customerRepository : Nat
  orderRepository : Nat
  productRepository : Nat
deriving DecidableEq

/-- Building one context value: `createLoaders()` called once per
repository (src/api/src/index.js lines 191-193). -/
def buildContext (c : Nat) : Ctx × Nat :=
  let p1 := createLoaders c
  let p2 := createLoaders p1.2
  let p3 := createLoaders p2.2
  (⟨p1.1, p2.1, p3.1⟩, p3.2)

/-- The loader-set ids a context value holds. -/
def Ctx.loaderIds (ctx : Ctx) : List Nat :=
  [ctx.customerRepository, ctx.orderRepository, ctx.productRepository]

/-- The contexts handed to `n` successive inbound requests by the server
of src/api/src/index.js: `context` is a function, so `buildContext` runs
once per request (lines 189-194). -/
def serveIndex : Nat → Nat → List Ctx
  | 0, _ => []
  | n + 1, c =>
    let p := buildContext c
    p.1 :: serveIndex n p.2

/-- The module-level context object of src/unnamed/part_000 lines
106-114: built once when the module is loaded. -/
def part000Context : Ctx := (buildContext 0).1

/-- The contexts handed to `n` successive inbound requests by the server
of src/unnamed/part_000: every request receives the same module-level
object. -/
def servePart000 (n : Nat) : List Ctx := List.replicate n part000Context

/-- Whether two context values share any loader set. -/
def sharesLoader (a b : Ctx) : Bool :=
  a.loaderIds.any (fun i => b.loaderIds.contains i)

/-! ## Concrete instances used by witnesses -/

/-- A batch-fetch function that succeeds on every key with ten times the
key. -/
def exFetch (ks : List Nat) : Except String (List (Outcome Nat)) :=
  .ok (ks.map (fun k => Outcome.val (10 * k)))

/-- A batch-fetch function returning value, per-key error, value for a
three-key batch. -/
def exFetchMixed (_ : List Nat) : Except String (List (Outcome Nat)) :=
  .ok [.val 10, .err "boom", .val 30]

/-- A batch-fetch function that fails entirely. -/
def exFetchDown (_ : List Nat) : Except String (List (Outcome Nat)) :=
  .error "backing store unreachable"

/-- A concrete loader state with one cached key. -/
def exCached : LoaderState Nat Nat := ⟨[(1, .val 5)], []⟩

/-- A concrete loader state with a three-key batch and empty cache. -/
def exBatch3 : LoaderState Nat Nat := ⟨[], [1, 2, 3]⟩

/-- A concrete address for witnesses. -/
def exAddr : Address := ⟨"1 Main St", "Springfield", "IL", "62701"⟩

/-- A sibling field result carrying data, for the claim-9 witness. -/
def exSibling : FieldResult Address := ⟨["customers", "0", "address"], some exAddr, none⟩

/-! ## Helper lemmas -/

section Lemmas

variable {K V A : Type} [DecidableEq K]

theorem lookupKV_append_none (l1 l2 : List (K × A)) (k : K)
    (h : lookupKV l1 k = none) : lookupKV (l1 ++ l2) k = lookupKV l2 k := by
  induction l1 with
  | nil => rfl
  | cons p l ih =>
    obtain ⟨k2, a⟩ := p
    by_cases hk : k = k2
    · simp [lookupKV, hk] at h
    · simp only [lookupKV, if_neg hk] at h
      simpa [lookupKV, if_neg hk] using ih h

theorem lookupKV_map_pair (l : List K) (f : K → A) (k : K) (h : k ∈ l) :
    lookupKV (l.map (fun x => (x, f x))) k = some (f k) := by
  induction l with
  | nil => cases h
  | cons x xs ih =>
    by_cases hk : k = x
    · subst hk; simp [lookupKV]
    · have hx : k ∈ xs := (List.mem_cons.mp h).resolve_left hk
      simpa [lookupKV, if_neg hk] using ih hx

theorem lookupKV_zip_get (l : List K) (outs : List A) (i : Nat)
    (hnd : l.Nodup) (hi : i < l.length) (ho : i < outs.length) :
    lookupKV (l.zip outs) (l.get ⟨i, hi⟩) = some (outs.get ⟨i, ho⟩) := by
  induction l generalizing outs i with
  | nil => cases hi
  | cons x xs ih =>
    cases outs with
    | nil => cases ho
    | cons y ys =>
      cases i with
      | zero => simp [lookupKV]
      | succ n =>
        have hx : x ∉ xs := (List.nodup_cons.mp hnd).1
        have hnd2 : xs.Nodup := (List.nodup_cons.mp hnd).2
        have hn : n < xs.length := by simpa using hi
        have hn2 : n < ys.length := by simpa using ho
        have hne : xs.get ⟨n, hn⟩ ≠ x := fun he => hx (he ▸ List.get_mem xs n hn)
        rw [List.zip_cons_cons, List.get_cons_succ, List.get_cons_succ]
        show (if xs.get ⟨n, hn⟩ = x then some y
          else lookupKV (xs.zip ys) (xs.get ⟨n, hn⟩)) = some (ys.get ⟨n, hn2⟩)
        rw [if_neg hne]
        exact ih ys n hnd2 hn hn2

theorem load_cache_eq (k : K) (s : LoaderState K V) :
    ((load k s).2).cache = s.cache := by
  cases h : lookupKV s.cache k with
  | some o => simp [load, h]
  | none =>
    by_cases hb : k ∈ s.batch
    · simp [load, h, hb]
    · simp [load, h, hb]

theorem loads_cons (k : K) (ks : List K) (s : LoaderState K V) :
    loads (k :: ks) s = loads ks ((load k s).2) := rfl

theorem loads_cache_eq (ks : List K) (s : LoaderState K V) :
    (loads ks s).cache = s.cache := by
  induction ks generalizing s with
  | nil => rfl
  | cons k ks ih => rw [loads_cons, ih, load_cache_eq]

theorem dedupFirstFrom_cons (acc : List K) (k : K) (ks : List K) :
    dedupFirstFrom acc (k :: ks) =
      dedupFirstFrom (if k ∈ acc then acc else acc ++ [k]) ks := rfl

theorem loads_batch_of_cache_nil (ks : List K) (s : LoaderState K V)
    (h : s.cache = []) :
    (loads ks s).batch = dedupFirstFrom s.batch ks := by
  induction ks generalizing s with
  | nil => rfl
  | cons k ks ih =>
    have hl : lookupKV s.cache k = none := by rw [h]; rfl
    rw [loads_cons, dedupFirstFrom_cons]
    by_cases hk : k ∈ s.batch
    · have hs : (load k s).2 = s := by simp [load, hl, hk]
      rw [hs, if_pos hk]
      exact ih s h
    · have hs : (load k s).2 = ⟨s.cache, s.batch ++ [k]⟩ := by simp [load, hl, hk]
      rw [hs, if_neg hk]
      exact ih ⟨s.cache, s.batch ++ [k]⟩ h

theorem mem_dedupFirstFrom (acc ks : List K) (a : K) :
    a ∈ dedupFirstFrom acc ks ↔ a ∈ acc ∨ a ∈ ks := by
  induction ks generalizing acc with
  | nil => simp [dedupFirstFrom]
  | cons k ks ih =>
    rw [dedupFirstFrom_cons]
    by_cases hk : k ∈ acc
    · rw [if_pos hk, ih]
      constructor
      · rintro (h | h)
        · exact Or.inl h
        · exact Or.inr (List.mem_cons_of_mem k h)
      · rintro (h | h)
        · exact Or.inl h
        · rcases List.mem_cons.mp h with rfl | h
          · exact Or.inl hk
          · exact Or.inr h
    · rw [if_neg hk, ih]
      simp only [List.mem_append, List.mem_singleton, List.mem_cons]
      tauto

theorem nodup_dedupFirstFrom (acc ks : List K) (h : acc.Nodup) :
    (dedupFirstFrom acc ks).Nodup := by
  induction ks generalizing acc with
  | nil => exact h
  | cons k ks ih =>
    rw [dedupFirstFrom_cons]
    by_cases hk : k ∈ acc
    · rw [if_pos hk]; exact ih acc h
    · rw [if_neg hk]
      exact ih _ (by simp [List.nodup_append, h, hk])

theorem dedupFirstFrom_concat (acc ks : List K) (k : K) :
    dedupFirstFrom acc (ks ++ [k]) =
      if k ∈ dedupFirstFrom acc ks then dedupFirstFrom acc ks
      else dedupFirstFrom acc ks ++ [k] := by
  unfold dedupFirstFrom
  rw [List.foldl_append]
  rfl

theorem firstIdx_append_of_mem (l l2 : List K) (k : K) (h : k ∈ l) :
    firstIdx (l ++ l2) k = firstIdx l k := by
  induction l with
  | nil => cases h
  | cons x xs ih =>
    by_cases hk : k = x
    · simp [firstIdx, hk]
    · have hx : k ∈ xs := (List.mem_cons.mp h).resolve_left hk
      simp [firstIdx, if_neg hk, ih hx]

theorem firstIdx_lt_length (l : List K) (k : K) (h : k ∈ l) :
    firstIdx l k < l.length := by
  induction l with
  | nil => cases h
  | cons x xs ih =>
    by_cases hk : k = x
    · simp [firstIdx, hk]
    · have hx : k ∈ xs := (List.mem_cons.mp h).resolve_left hk
      have := ih hx
      simp only [firstIdx, if_neg hk, List.length_cons]
      omega

theorem firstIdx_append_self (l : List K) (k : K) (h : k ∉ l) :
    firstIdx (l ++ [k]) k = l.length := by
  induction l with
  | nil => simp [firstIdx]
  | cons x xs ih =>
    have hk : k ≠ x := fun he => h (he ▸ List.mem_cons_self x xs)
    have hx : k ∉ xs := fun hm => h (List.mem_cons_of_mem x hm)
    simp [firstIdx, if_neg hk, ih hx]

theorem pairwise_firstIdx_dedupFirst (ks : List K) :
    (dedupFirst ks).Pairwise (fun a c => firstIdx ks a < firstIdx ks c) := by
  induction ks using List.reverseRecOn with
  | nil => simp [dedupFirst, dedupFirstFrom]
  | append_singleton l k ih =>
    unfold dedupFirst at *
    rw [dedupFirstFrom_concat]
    by_cases hk : k ∈ dedupFirstFrom [] l
    · rw [if_pos hk]
      refine ih.imp_of_mem ?_
      intro a c ha hc h
      have ha2 : a ∈ l := ((mem_dedupFirstFrom [] l a).mp ha).resolve_left
        (List.not_mem_nil a)
      have hc2 : c ∈ l := ((mem_dedupFirstFrom [] l c).mp hc).resolve_left
        (List.not_mem_nil c)
      rw [firstIdx_append_of_mem l [k] a ha2, firstIdx_append_of_mem l [k] c hc2]
      exact h
    · rw [if_neg hk, List.pairwise_append]
      have hkl : k ∉ l := fun hm =>
        hk ((mem_dedupFirstFrom [] l k).mpr (Or.inr hm))
      refine ⟨ih.imp_of_mem ?_, List.pairwise_singleton _ _, ?_⟩
      · intro a c ha hc h
        have ha2 : a ∈ l := ((mem_dedupFirstFrom [] l a).mp ha).resolve_left
          (List.not_mem_nil a)
        have hc2 : c ∈ l := ((mem_dedupFirstFrom [] l c).mp hc).resolve_left
          (List.not_mem_nil c)
        rw [firstIdx_append_of_mem l [k] a ha2, firstIdx_append_of_mem l [k] c hc2]
        exact h
      · intro a ha b hb
        have hb2 : b = k := by simpa using hb
        subst hb2
        have ha2 : a ∈ l := ((mem_dedupFirstFrom [] l a).mp ha).resolve_left
          (List.not_mem_nil a)
        rw [firstIdx_append_of_mem l [b] a ha2, firstIdx_append_self l b hkl]
        exact firstIdx_lt_length l a ha2

theorem flush_fetchedKeys (fetch : List K → Except String (List (Outcome V)))
    (s : LoaderState K V) : (flush fetch s).fetchedKeys = s.batch := by
  cases h : fetch s.batch with
  | error e => simp [flush, h]
  | ok outs =>
    by_cases hl : outs.length = s.batch.length
    · simp [flush, h, hl]
    · simp [flush, h, hl]

theorem flush_ok (fetch : List K → Except String (List (Outcome V)))
    (s : LoaderState K V) (outs : List (Outcome V))
    (hf : fetch s.batch = .ok outs) (hl : outs.length = s.batch.length) :
    flush fetch s =
      ⟨s.batch, s.batch.zip outs, ⟨s.cache ++ s.batch.zip outs, []⟩⟩ := by
  simp [flush, hf, hl]

theorem flush_err (fetch : List K → Except String (List (Outcome V)))
    (s : LoaderState K V) (e : String) (hf : fetch s.batch = .error e) :
    flush fetch s =
      ⟨s.batch, s.batch.map (fun k => (k, .err e)), ⟨s.cache, []⟩⟩ := by
  simp [flush, hf]

theorem Wf_load (k : K) (s : LoaderState K V) (h : Wf s) : Wf ((load k s).2) := by
  obtain ⟨h1, h2⟩ := h
  cases hc : lookupKV s.cache k with
  | some o => simpa [load, hc] using ⟨h1, h2⟩
  | none =>
    by_cases hb : k ∈ s.batch
    · simpa [load, hc, hb] using ⟨h1, h2⟩
    · have hs : (load k s).2 = ⟨s.cache, s.batch ++ [k]⟩ := by simp [load, hc, hb]
      rw [hs]
      refine ⟨by simp [List.nodup_append, h1, hb], ?_⟩
      intro k2 hk2
      rcases List.mem_append.mp hk2 with hm | hm
      · exact h2 k2 hm
      · have : k2 = k := by simpa using hm
        subst this
        exact hc

theorem Wf_loads (ks : List K) (s : LoaderState K V) (h : Wf s) :
    Wf (loads ks s) := by
  induction ks generalizing s with
  | nil => exact h
  | cons k ks ih => rw [loads_cons]; exact ih _ (Wf_load k s h)

end Lemmas

/-! ## Claim theorems -/

/-- Claim C1: for every sequence of load calls issued on a fresh Loader
within one synchronous pass before a flush, the key sequence handed to
the batch-fetch function at flush time is exactly the distinct requested
keys: no duplicates (each requested key counted exactly once) and in the
order each distinct key was first requested (strictly increasing first
occurrence positions). -/
theorem claim1_batch_dedup_first_order {K V : Type} [DecidableEq K]
    (ks : List K) (fetch : List K → Except String (List (Outcome V))) :
    (flush fetch (loads ks (initLoader : LoaderState K V))).fetchedKeys
      = dedupFirst ks ∧
    (dedupFirst ks).Nodup ∧
    (∀ k, (dedupFirst ks).count k = if k ∈ ks then 1 else 0) ∧
    (dedupFirst ks).Pairwise (fun a c => firstIdx ks a < firstIdx ks c) := by
  have h1 : (flush fetch (loads ks (initLoader : LoaderState K V))).fetchedKeys
      = dedupFirst ks := by
    rw [flush_fetchedKeys, loads_batch_of_cache_nil ks initLoader rfl]
    rfl
  have hnd : (dedupFirst ks).Nodup := nodup_dedupFirstFrom [] ks List.nodup_nil
  refine ⟨h1, hnd, ?_, pairwise_firstIdx_dedupFirst ks⟩
  intro k
  by_cases hk : k ∈ ks
  · rw [if_pos hk]
    exact List.count_eq_one_of_mem hnd
      ((mem_dedupFirstFrom [] ks k).mpr (Or.inr hk))
  · rw [if_neg hk]
    exact List.count_eq_zero.mpr
      (fun hm => hk (((mem_dedupFirstFrom [] ks k).mp hm).resolve_left
        (List.not_mem_nil k)))

/-- Witness for claim C1 at the spec's end-to-end scenario, ids 1,2,1,3. -/
theorem claim1_witness :
    (flush exFetch (loads [1, 2, 1, 3] (initLoader : LoaderState Nat Nat))).fetchedKeys
      = dedupFirst [1, 2, 1, 3] :=
  (claim1_batch_dedup_first_order [1, 2, 1, 3] exFetch).1

/-- Claim C2: for every flush of a Batch with key sequence k_0..k_(n-1)
and a batch-fetch output of matching length, the outcome delivered to the
pending caller(s) of key k_i is exactly element i of the output sequence,
for every position i — also when some positions are errors and others
values; the embedding is deterministic, so no backing-store response
timing can vary the correspondence. -/
theorem claim2_positional_demux {K V : Type} [DecidableEq K]
    (s : LoaderState K V) (fetch : List K → Except String (List (Outcome V)))
    (outs : List (Outcome V)) (i : Nat)
    (hnd : s.batch.Nodup) (hf : fetch s.batch = .ok outs)
    (hl : outs.length = s.batch.length)
    (hi : i < s.batch.length) (ho : i < outs.length) :
    deliveredTo (flush fetch s) (s.batch.get ⟨i, hi⟩)
      = some (outs.get ⟨i, ho⟩) := by
  rw [deliveredTo, flush_ok fetch s outs hf hl]
  exact lookupKV_zip_get s.batch outs i hnd hi ho

/-- Witness for claim C2: position 1 of a three-key batch receives
position 1 of the fetch output. -/
theorem claim2_witness :
    deliveredTo (flush exFetch exBatch3) (exBatch3.batch.get ⟨1, by decide⟩)
      = some (([Outcome.val 10, .val 20, .val 30]).get ⟨1, by decide⟩) :=
  claim2_positional_demux exBatch3 exFetch [.val 10, .val 20, .val 30] 1
    (by decide) rfl rfl (by decide) (by decide)

/-- Claim C3: once a key's outcome is cached, loading it returns that
identical cached outcome with unchanged state, it stays out of the Batch
across any further sequence of loads, and no later flush hands it to the
batch-fetch function again — whatever that function would now answer. -/
theorem claim3_cached_outcome_stable {K V : Type} [DecidableEq K]
    (s : LoaderState K V) (k : K) (o : Outcome V) (ks : List K)
    (fetch : List K → Except String (List (Outcome V)))
    (hw : Wf s) (hc : lookupKV s.cache k = some o) :
    load k s = (.cached o, s) ∧
    load k (loads ks s) = (.cached o, loads ks s) ∧
    k ∉ (loads ks s).batch ∧
    k ∉ (flush fetch (loads ks s)).fetchedKeys := by
  have h1 : load k s = (.cached o, s) := by simp [load, hc]
  have hcache : (loads ks s).cache = s.cache := loads_cache_eq ks s
  have h2 : load k (loads ks s) = (.cached o, loads ks s) := by
    simp [load, hcache, hc]
  have h3 : k ∉ (loads ks s).batch := by
    intro hm
    have hn := (Wf_loads ks s hw).2 k hm
    rw [hcache, hc] at hn
    cases hn
  exact ⟨h1, h2, h3, by rw [flush_fetchedKeys]; exact h3⟩

/-- Witness for claim C3: key 1 cached with value 5 stays cached and out
of every later batch. -/
theorem claim3_witness :
    load 1 exCached = (.cached (.val 5), exCached) ∧
    load 1 (loads [2, 1, 3] exCached) = (.cached (.val 5), loads [2, 1, 3] exCached) ∧
    1 ∉ (loads [2, 1, 3] exCached).batch ∧
    1 ∉ (flush exFetch (loads [2, 1, 3] exCached)).fetchedKeys :=
  claim3_cached_outcome_stable exCached 1 (.val 5) [2, 1, 3] exFetch
    ⟨List.nodup_nil, fun k hk => absurd hk (List.not_mem_nil k)⟩ rfl

/-- Claim C5: in a flushed batch whose output mixes values and per-key
errors, each caller receives exactly the outcome at its own key's
position, every outcome — a per-key error exactly like a success — is
placed in the Memo Cache, and a later load of that key returns the cached
outcome with unchanged state, so it is never retried. -/
theorem claim5_partial_failure {K V : Type} [DecidableEq K]
    (s : LoaderState K V) (fetch : List K → Except String (List (Outcome V)))
    (outs : List (Outcome V)) (i : Nat)
    (hw : Wf s) (hf : fetch s.batch = .ok outs)
    (hl : outs.length = s.batch.length)
    (hi : i < s.batch.length) (ho : i < outs.length) :
    deliveredTo (flush fetch s) (s.batch.get ⟨i, hi⟩)
      = some (outs.get ⟨i, ho⟩) ∧
    lookupKV (flush fetch s).state.cache (s.batch.get ⟨i, hi⟩)
      = some (outs.get ⟨i, ho⟩) ∧
    load (s.batch.get ⟨i, hi⟩) (flush fetch s).state
      = (.cached (outs.get ⟨i, ho⟩), (flush fetch s).state) := by
  obtain ⟨hnd, hnc⟩ := hw
  have hmem : s.batch.get ⟨i, hi⟩ ∈ s.batch := List.get_mem s.batch i hi
  have hzip : lookupKV (s.batch.zip outs) (s.batch.get ⟨i, hi⟩)
      = some (outs.get ⟨i, ho⟩) :=
    lookupKV_zip_get s.batch outs i hnd hi ho
  have hdel : deliveredTo (flush fetch s) (s.batch.get ⟨i, hi⟩)
      = some (outs.get ⟨i, ho⟩) := by
    rw [deliveredTo, flush_ok fetch s outs hf hl]
    exact hzip
  have hcache : lookupKV (flush fetch s).state.cache (s.batch.get ⟨i, hi⟩)
      = some (outs.get ⟨i, ho⟩) := by
    rw [flush_ok fetch s outs hf hl]
    show lookupKV (s.cache ++ s.batch.zip outs) (s.batch.get ⟨i, hi⟩)
      = some (outs.get ⟨i, ho⟩)
    rw [lookupKV_append_none s.cache _ _ (hnc _ hmem)]
    exact hzip
  exact ⟨hdel, hcache, by simp only [load, hcache]⟩

/-- Witness for claim C5 at the spec's scenario: three keys, output
value, error, value; the second caller observes the cached error. -/
theorem claim5_witness :
    deliveredTo (flush exFetchMixed exBatch3) (exBatch3.batch.get ⟨1, by decide⟩)
      = some (([Outcome.val 10, .err "boom", .val 30]).get ⟨1, by decide⟩) ∧
    lookupKV (flush exFetchMixed exBatch3).state.cache
        (exBatch3.batch.get ⟨1, by decide⟩)
      = some (([Outcome.val 10, .err "boom", .val 30]).get ⟨1, by decide⟩) ∧
    load (exBatch3.batch.get ⟨1, by decide⟩) (flush exFetchMixed exBatch3).state
      = (.cached (([Outcome.val 10, .err "boom", .val 30]).get ⟨1, by decide⟩),
        (flush exFetchMixed exBatch3).state) :=
  claim5_partial_failure exBatch3 exFetchMixed [.val 10, .err "boom", .val 30] 1
    ⟨by decide, fun k _ => rfl⟩ rfl rfl (by decide) (by decide)

/-- Claim C6: when the batch-fetch call fails entirely, every
PendingEntry in that batch resolves to that same failure, none of the
batch's keys is cached (the Memo Cache is unchanged), and a subsequent
load of any of those keys enters a new batch whose flush invokes the
batch-fetch function with that key again. -/
theorem claim6_total_failure {K V : Type} [DecidableEq K]
    (s : LoaderState K V)
    (fetch fetch2 : List K → Except String (List (Outcome V)))
    (e : String) (k : K)
    (hf : fetch s.batch = .error e)
    (hk : k ∈ s.batch) (hc : lookupKV s.cache k = none) :
    (flush fetch s).resolutions = s.batch.map (fun k2 => (k2, Outcome.err e)) ∧
    deliveredTo (flush fetch s) k = some (.err e) ∧
    (flush fetch s).state.cache = s.cache ∧
    (flush fetch s).state.batch = [] ∧
    (flush fetch2 ((load k (flush fetch s).state).2)).fetchedKeys = [k] := by
  rw [flush_err fetch s e hf]
  refine ⟨rfl, ?_, rfl, rfl, ?_⟩
  · rw [deliveredTo]
    exact lookupKV_map_pair s.batch (fun _ => Outcome.err e) k hk
  · have hload : (load k (⟨s.cache, []⟩ : LoaderState K V)).2 = ⟨s.cache, [k]⟩ := by
      simp [load, hc]
    show (flush fetch2 ((load k (⟨s.cache, []⟩ : LoaderState K V)).2)).fetchedKeys = [k]
    rw [hload, flush_fetchedKeys]

/-- Witness for claim C6: a three-key batch whose fetch fails entirely;
key 2 is rejected with that failure, not cached, and refetched next. -/
theorem claim6_witness :
    (flush exFetchDown exBatch3).resolutions
      = exBatch3.batch.map (fun k2 => (k2, Outcome.err "backing store unreachable")) ∧
    deliveredTo (flush exFetchDown exBatch3) 2
      = some (.err "backing store unreachable") ∧
    (flush exFetchDown exBatch3).state.cache = exBatch3.cache ∧
    (flush exFetchDown exBatch3).state.batch = [] ∧
    (flush exFetch ((load 2 (flush exFetchDown exBatch3).state).2)).fetchedKeys = [2] :=
  claim6_total_failure exBatch3 exFetchDown exFetch "backing store unreachable" 2
    rfl (by decide) rfl

/-- Claim C8: prime is idempotent with respect to the Memo Cache: priming
an already-cached key is a no-op, and priming a not-yet-requested key
makes the next load of it resolve to the primed value with unchanged
state and an untouched Batch, so no batch fetch is scheduled. -/
theorem claim8_prime_idempotent {K V : Type} [DecidableEq K]
    (s : LoaderState K V) (k : K) (v : V) :
    (∀ o, lookupKV s.cache k = some o → prime k v s = s) ∧
    (lookupKV s.cache k = none → k ∉ s.batch →
      (prime k v s).batch = s.batch ∧
      k ∉ (prime k v s).batch ∧
      load k (prime k v s) = (.cached (.val v), prime k v s)) := by
  constructor
  · intro o ho
    simp [prime, ho]
  · intro hc hb
    have hp : prime k v s = ⟨s.cache ++ [(k, .val v)], s.batch⟩ := by
      simp [prime, hc]
    have hlk : lookupKV (s.cache ++ [(k, Outcome.val v)]) k = some (.val v) := by
      rw [lookupKV_append_none s.cache _ k hc]
      simp [lookupKV]
    rw [hp]
    exact ⟨rfl, hb, by simp [load, hlk]⟩

/-- Witness for claim C8: priming cached key 1 is a no-op; priming key 2
on a fresh loader makes its next load resolve without touching the batch. -/
theorem claim8_witness :
    prime 1 9 exCached = exCached ∧
    ((prime 2 42 (initLoader : LoaderState Nat Nat)).batch
        = (initLoader : LoaderState Nat Nat).batch ∧
      2 ∉ (prime 2 42 (initLoader : LoaderState Nat Nat)).batch ∧
      load 2 (prime 2 42 (initLoader : LoaderState Nat Nat))
        = (.cached (.val 42), prime 2 42 (initLoader : LoaderState Nat Nat))) :=
  ⟨(claim8_prime_idempotent exCached 1 9).1 (.val 5) rfl,
   (claim8_prime_idempotent (initLoader : LoaderState Nat Nat) 2 42).2 rfl
     (List.not_mem_nil 2)⟩

theorem serveIndex_get (n c i : Nat) (h : i < (serveIndex n c).length) :
    (serveIndex n c).get ⟨i, h⟩ = ⟨c + 3 * i, c + 3 * i + 1, c + 3 * i + 2⟩ := by
  induction n generalizing c i with
  | zero => cases h
  | succ n ih =>
    have hcons : serveIndex (n + 1) c
        = (⟨c, c + 1, c + 2⟩ : Ctx) :: serveIndex n (c + 3) := rfl
    cases i with
    | zero =>
      rw [List.get_of_eq hcons]
      show (⟨c, c + 1, c + 2⟩ : Ctx) = ⟨c + 3 * 0, c + 3 * 0 + 1, c + 3 * 0 + 2⟩
      simp
    | succ j =>
      have h2 : j + 1 < ((⟨c, c + 1, c + 2⟩ : Ctx) :: serveIndex n (c + 3)).length := by
        rw [← hcons]; exact h
      have hj : j < (serveIndex n (c + 3)).length := by
        simpa using h2
      have hstep : (serveIndex (n + 1) c).get ⟨j + 1, h⟩
          = (serveIndex n (c + 3)).get ⟨j, hj⟩ := by
        rw [List.get_of_eq hcons, List.get_cons_succ]
      rw [hstep, ih (c + 3) j hj]
      have e1 : c + 3 + 3 * j = c + 3 * (j + 1) := by omega
      rw [e1]

/-- Claim C4 fails as stated: in the src/unnamed/part_000 server the
context (src/unnamed/part_000 lines 106-114) is a module-level object, so
two distinct inbound requests receive the very same context value and
share every loader set — no fresh Loaders are constructed per request. -/
theorem claim4_counterexample :
    (servePart000 2).get ⟨0, by decide⟩ = (servePart000 2).get ⟨1, by decide⟩ ∧
    sharesLoader ((servePart000 2).get ⟨0, by decide⟩)
      ((servePart000 2).get ⟨1, by decide⟩) = true := by
  exact ⟨rfl, rfl⟩

/-- Claim C4 amended: for the server of src/api/src/index.js, whose
context is a function invoked once per inbound request (lines 186-195)
calling createLoaders for every repository, two distinct requests never
share a Loader instance (hence no Memo Cache entry or in-flight Batch);
the src/unnamed/part_000 variant instead builds its context object once
at module load and shares it among all requests. -/
theorem claim4_amended_per_request_isolation (n c i j : Nat)
    (hi : i < (serveIndex n c).length) (hj : j < (serveIndex n c).length)
    (hij : i ≠ j) :
    ∀ a, a ∈ ((serveIndex n c).get ⟨i, hi⟩).loaderIds →
      a ∉ ((serveIndex n c).get ⟨j, hj⟩).loaderIds := by
  intro a ha hb
  rw [serveIndex_get n c i hi] at ha
  rw [serveIndex_get n c j hj] at hb
  simp [Ctx.loaderIds] at ha hb
  omega

/-- Witness for the amended claim C4: loader set 0 of the first request
is absent from the second request's context. -/
theorem claim4_witness :
    (0 : Nat) ∉ ((serveIndex 2 0).get ⟨1, by decide⟩).loaderIds :=
  claim4_amended_per_request_isolation 2 0 0 1 (by decide) (by decide)
    (by decide) 0 (by decide)

/-- Claim C7 fails as stated: the backing object with all three
distinguishing attributes falsy resolves to no declared variant — the JS
function falls through every check and returns undefined, so the
discriminator is not total. -/
theorem claim7_counterexample :
    resolvePayment ⟨false, false, false⟩ = none := rfl

/-- Claim C7 amended: the discriminator checks the distinguishing
attributes in the fixed priority order Credit, Debit, PayPal and resolves
every backing object with at least one truthy distinguishing attribute to
exactly one declared variant; an object with all three attributes falsy
resolves to no variant at all. -/
theorem claim7_amended_discriminator (obj : PaymentObj) :
    (resolvePayment obj).isSome
      = (obj.authorizationCode || obj.bankAuthCode || obj.chargeBack) ∧
    (obj.authorizationCode = true → resolvePayment obj = some .Credit) ∧
    (obj.authorizationCode = false → obj.bankAuthCode = true →
      resolvePayment obj = some .Debit) ∧
    (obj.authorizationCode = false → obj.bankAuthCode = false →
      (resolvePayment obj = some .PayPal ↔ obj.chargeBack = true)) := by
  obtain ⟨a, b, c⟩ := obj
  cases a <;> cases b <;> cases c <;> decide

/-- Witness for the amended claim C7: an ambiguous object resolves to
Credit; with authorizationCode falsy it resolves to Debit. -/
theorem claim7_witness :
    resolvePayment ⟨true, true, true⟩ = some .Credit ∧
    resolvePayment ⟨false, true, true⟩ = some .Debit :=
  ⟨(claim7_amended_discriminator ⟨true, true, true⟩).2.1 rfl,
   (claim7_amended_discriminator ⟨false, true, true⟩).2.2.1 rfl rfl⟩

/-- Claim C9: the Customer address resolver raises AddressNotFound
exactly when the customer record's address is absent and otherwise
returns the address unchanged; the raised error is attached as a
field-level error at the node's path in the built response while every
sibling field's data is kept, instead of aborting the whole response. -/
theorem claim9_address_resolver (c : Customer) :
    ((∃ e, addressResolver c = .error e) ↔ c.address = none) ∧
    (∀ a, c.address = some a → addressResolver c = .ok a) ∧
    (∀ (others : List (FieldResult Address)) (p : List String),
      c.address = none →
      (buildResponse (others ++ [fieldOf p (addressResolver c)])).errors
        = (buildResponse others).errors
          ++ [(p, .addressNotFound (addressMessage c))] ∧
      (buildResponse (others ++ [fieldOf p (addressResolver c)])).dataOut
        = (buildResponse others).dataOut) := by
  refine ⟨?_, ?_, ?_⟩
  · constructor
    · rintro ⟨e, he⟩
      cases hc : c.address with
      | none => rfl
      | some a => simp [addressResolver, hc] at he
    · intro hc
      exact ⟨.addressNotFound (addressMessage c), by simp [addressResolver, hc]⟩
  · intro a hc
    simp [addressResolver, hc]
  · intro others p hc
    have hres : addressResolver c = .error (.addressNotFound (addressMessage c)) := by
      simp [addressResolver, hc]
    rw [hres]
    constructor
    · simp [buildResponse, fieldOf]
    · simp [buildResponse, fieldOf]

/-- Witness for claim C9: customer 7 has no address; the error lands at
its node's path and the sibling field's data survives. -/
theorem claim9_witness :
    (buildResponse ([exSibling] ++ [fieldOf ["customers", "1", "address"]
        (addressResolver ⟨7, none⟩)])).errors
      = (buildResponse [exSibling]).errors
        ++ [(["customers", "1", "address"],
            .addressNotFound (addressMessage ⟨7, none⟩))] ∧
    (buildResponse ([exSibling] ++ [fieldOf ["customers", "1", "address"]
        (addressResolver ⟨7, none⟩)])).dataOut
      = (buildResponse [exSibling]).dataOut :=
  (claim9_address_resolver ⟨7, none⟩).2.2 [exSibling] ["customers", "1", "address"] rfl

/-- Claim C10: every backing object whose authorizationCode attribute is
truthy resolves to the Credit variant, regardless of bankAuthCode or
chargeBack: the attribute checks are first-match-wins in the order
Credit, Debit, PayPal, never reported as ambiguous. -/
theorem claim10_credit_first_match (obj : PaymentObj)
    (h : obj.authorizationCode = true) :
    resolvePayment obj = some .Credit := by
  simp [resolvePayment, h]

/-- Witness for claim C10: the object matching all three attribute checks
resolves to Credit. -/
theorem claim10_witness : resolvePayment ⟨true, true, true⟩ = some .Credit :=
  claim10_credit_first_match ⟨true, true, true⟩ rfl

end GraphqlTalk
